import Mathlib

/-!
Shallow embedding of `src/httpmessage.rs` (the actix-http body-consumption
layer): content-type/charset negotiation, cookie caching, size-limited whole
body accumulation (`MessageBody`), form decoding (`UrlEncoded`) and incremental
line decoding (`Readlines`).

Modelling conventions:
* bytes are `Nat`, byte strings are `List Nat`;
* the demand-driven payload stream (`Payload<T::Stream>`) is a list of poll
  events consumed from the front; an exhausted list behaves like end-of-data
  (`Payload::None` polls to `Ready(None)`);
* a `poll` of a future/stream returns the futures-0.1 outcome
  (`Ok(Async::Ready _)`, `Ok(Async::NotReady)` or `Err _`) together with the
  successor state;
* external collaborators (the `mime` parser, the whatwg charset registry and
  `Cookie::parse_encoded` from the `cookie` crate) are fields of `Msg`, since
  their code is outside this repository; `str::from_utf8` is modelled
  concretely (`utf8Decode`), and the charset fast path `enc == UTF_8`
  (pointer identity in the source) is carried as an `isUtf8` tag.
-/

/-- Outcome of one `poll` in the futures-0.1 style:
`Ok(Async::Ready a)`, `Ok(Async::NotReady)` or `Err e`. -/
inductive Poll1 (α : Type) (ε : Type) where
  | ready (a : α)
  | notReady
  | err (e : ε)
deriving DecidableEq, Repr

/-- PayloadError (from `error.rs`, which only declares the taxonomy used here;
the spec lists `PayloadError{UnknownLength, Overflow, SourceError}`). -/
inductive PayloadError where
  | unknownLength
  | overflow
  | sourceError
deriving DecidableEq, Repr

/-- UrlencodedError. `payload` models the wrapping of a stream error by
`from_err()` (spec: any error reported by the source is wrapped). -/
inductive UrlencodedError where
  | contentType
  | unknownLength
  | overflow
  | parse
  | payload (e : PayloadError)
deriving DecidableEq, Repr

/-- ReadlinesError. `contentTypeError` models the `From<ContentTypeError>`
conversion used by `Readlines::new`; `payloadErr` the `From<PayloadError>`
conversion used when the source errors. -/
inductive ReadlinesError where
  | encodingError
  | limitOverflow
  | contentTypeError
  | payloadErr (e : PayloadError)
deriving DecidableEq, Repr

/-- ContentTypeError, raised by the Negotiator (`mime_type` / `encoding`). -/
inductive ContentTypeError where
  | parseError
  | unknownEncoding
deriving DecidableEq, Repr

/-- CookieParseError: invalid UTF-8 in a `Cookie` header, or a segment the
cookie parser rejects. -/
inductive CookieParseError where
  | invalidEncoding
  | malformedCookie
deriving DecidableEq, Repr

/-- One event delivered by the ChunkSource per demand: a data chunk,
not-ready, end-of-data (`Ready(None)`) or a source error. -/
inductive StreamEvent where
  | chunk (c : List Nat)
  | notReady
  | endData
  | srcErr (e : PayloadError)
deriving DecidableEq, Repr

/-- Bytes of an ASCII string literal. -/
def strBytes (s : String) : List Nat :=
  s.data.map Char.toNat

/-- HeaderValue::to_str succeeds iff every byte is visible ASCII, space or tab
(http crate: `b >= 32 && b < 127 || b == b'\t'`); it returns the same bytes. -/
def validHdrByte (b : Nat) : Bool :=
  (32 ≤ b && b < 127) || b = 9

/-- Model of `HeaderValue::to_str`. -/
def toStr (v : List Nat) : Option (List Nat) :=
  if v.all validHdrByte then some v else none

/-- ASCII digit. -/
def isDigit (b : Nat) : Bool :=
  48 ≤ b && b ≤ 57

/-- Numeric value of a digit string. -/
def digitsVal (s : List Nat) : Nat :=
  s.foldl (fun acc b => acc * 10 + (b - 48)) 0

/-- Model of `str::parse::<usize>()`: an optional leading `+`, then one or
more ASCII digits, rejecting values that overflow a 64-bit usize. -/
def parseUsize (s : List Nat) : Option Nat :=
  let t := match s with
    | 43 :: rest => rest
    | _ => s
  if t.isEmpty then none
  else if t.all isDigit then
    if digitsVal t < 2 ^ 64 then some (digitsVal t) else none
  else none

/-- ASCII whitespace byte. `str::trim` trims Unicode whitespace; on the byte
strings reachable here (visible-ASCII header text, ASCII cookie segments) only
these ASCII whitespace bytes occur. -/
def isWs (b : Nat) : Bool :=
  b = 9 || b = 10 || b = 11 || b = 12 || b = 13 || b = 32

/-- Model of `str::trim`. -/
def trimWs (bs : List Nat) : List Nat :=
  ((bs.dropWhile isWs).reverse.dropWhile isWs).reverse

/-- ASCII lowercasing of one byte (`str::to_lowercase` on ASCII text). -/
def toLowerByte (b : Nat) : Nat :=
  if 65 ≤ b && b ≤ 90 then b + 32 else b

/-- ASCII lowercasing of a byte string. -/
def toLowerBytes (bs : List Nat) : List Nat :=
  bs.map toLowerByte

/-- Index of the first `\n` (byte 10), as in the scan loops of
`Readlines::poll`. -/
def findNl : List Nat → Option Nat
  | [] => none
  | b :: rest => if b = 10 then some 0 else (findNl rest).map (· + 1)

/-- Model of `str::split(';')`: the list of `;`-separated segments (an empty
input yields one empty segment, as in Rust). -/
def splitOn59 : List Nat → List (List Nat)
  | [] => [[]]
  | b :: rest =>
    if b = 59 then [] :: splitOn59 rest
    else
      match splitOn59 rest with
      | [] => [[b]]
      | g :: gs => (b :: g) :: gs

/-- Concatenation of a list of chunks. -/
def concatChunks : List (List Nat) → List Nat
  | [] => []
  | c :: cs => c ++ concatChunks cs

/-- All data bytes a stream of events can deliver, in order. -/
def chunkBytes : List StreamEvent → List Nat
  | [] => []
  | StreamEvent.chunk c :: rest => c ++ chunkBytes rest
  | _ :: rest => chunkBytes rest

/-- UTF-8 continuation byte. -/
def isCont (b : Nat) : Bool :=
  128 ≤ b && b ≤ 191

/-- UTF-8 validity of a byte sequence (the acceptor behind
`str::from_utf8`). -/
def validUtf8 : List Nat → Bool
  | [] => true
  | b :: rest =>
    if b ≤ 127 then validUtf8 rest
    else
      match rest with
      | [] => false
      | c1 :: rest1 =>
        if 194 ≤ b && b ≤ 223 then isCont c1 && validUtf8 rest1
        else
          match rest1 with
          | [] => false
          | c2 :: rest2 =>
            if b = 224 then (160 ≤ c1 && c1 ≤ 191) && isCont c2 && validUtf8 rest2
            else if (225 ≤ b && b ≤ 236) || b = 238 || b = 239 then
              isCont c1 && isCont c2 && validUtf8 rest2
            else if b = 237 then (128 ≤ c1 && c1 ≤ 159) && isCont c2 && validUtf8 rest2
            else
              match rest2 with
              | [] => false
              | c3 :: rest3 =>
                if b = 240 then
                  (144 ≤ c1 && c1 ≤ 191) && isCont c2 && isCont c3 && validUtf8 rest3
                else if 241 ≤ b && b ≤ 243 then
                  isCont c1 && isCont c2 && isCont c3 && validUtf8 rest3
                else if b = 244 then
                  (128 ≤ c1 && c1 ≤ 143) && isCont c2 && isCont c3 && validUtf8 rest3
                else false

/-- Model of `str::from_utf8`: valid UTF-8 bytes are returned unchanged
(viewed as text), invalid ones are rejected. -/
def utf8Decode (bs : List Nat) : Option (List Nat) :=
  if validUtf8 bs then some bs else none

/-- A resolved charset (`EncodingRef`): the `isUtf8` tag models pointer
identity with the static `UTF_8` encoding (the source's fast-path test
`enc == UTF_8`), and `decode` its strict decode (`DecoderTrap::Strict`). -/
structure Charset where
  isUtf8 : Bool
  decode : List Nat → Option (List Nat)

/-- The distinguished UTF-8 charset: strict decode is `str::from_utf8`. -/
def UTF_8 : Charset :=
  { isUtf8 := true, decode := utf8Decode }

/-- The slice of a parsed `Mime` used by this file: its optional `charset`
parameter (`mime_type.get_param("charset")`). -/
structure Mime where
  charsetParam : Option (List Nat)

/-- A parsed cookie (`Cookie<'static>`), reduced to the fields this file
observes: its name and value. -/
structure Cookie where
  name : List Nat
  value : List Nat
deriving DecidableEq, Repr

/-- An HTTP message as this layer sees it: the (already lower-case-named)
header map, the payload event stream, and the external collaborators it
consults: the `mime` crate's parser, `encoding_from_whatwg_label`, and
`Cookie::parse_encoded`. -/
structure Msg where
  headers : List (String × List Nat)
  payload : List StreamEvent
  mimeParse : List Nat → Option Mime
  charsetLookup : List Nat → Option Charset
  cookieParse : List Nat → Option Cookie

/-- `HeaderMap::get`: first value stored under a name. -/
def headerGet : List (String × List Nat) → String → Option (List Nat)
  | [], _ => none
  | (n, v) :: rest, name => if n = name then some v else headerGet rest name

/-- `HeaderMap::get_all`: every value stored under a name, in order. -/
def headerGetAll (hs : List (String × List Nat)) (name : String) : List (List Nat) :=
  (hs.filter (fun p => p.1 = name)).map (fun p => p.2)

/-- `HttpMessage::content_type`: the trimmed token before the first `;` of the
`Content-Type` header, or the empty string when the header is absent or not
valid header text. -/
def Msg.content_type (m : Msg) : List Nat :=
  match headerGet m.headers "content-type" with
  | some v =>
    match toStr v with
    | some s => trimWs (s.takeWhile (fun b => b != 59))
    | none => []
  | none => []

/-- `HttpMessage::mime_type`: none when the header is absent; `ParseError`
when it is not header text or the mime parser rejects it. -/
def Msg.mime_type (m : Msg) : Except ContentTypeError (Option Mime) :=
  match headerGet m.headers "content-type" with
  | some v =>
    match toStr v with
    | some s =>
      match m.mimeParse s with
      | some mt => .ok (some mt)
      | none => .error .parseError
    | none => .error .parseError
  | none => .ok none

/-- `HttpMessage::encoding`: the charset parameter resolved against the
whatwg registry, defaulting to UTF-8 when there is no content type or no
charset parameter. -/
def Msg.encoding (m : Msg) : Except ContentTypeError Charset :=
  match m.mime_type with
  | .error e => .error e
  | .ok none => .ok UTF_8
  | .ok (some mt) =>
    match mt.charsetParam with
    | none => .ok UTF_8
    | some cs =>
      match m.charsetLookup cs with
      | some enc => .ok enc
      | none => .error .unknownEncoding

/-- One `Cookie` header value: the `;`-split, trimmed, non-empty segments,
each parsed by `Cookie::parse_encoded`, failing on the first bad segment. -/
def parseSegs (cp : List Nat → Option Cookie) :
    List (List Nat) → Except CookieParseError (List Cookie)
  | [] => .ok []
  | seg :: rest =>
    let t := trimWs seg
    if t.isEmpty then parseSegs cp rest
    else
      match cp t with
      | none => .error .malformedCookie
      | some c => (parseSegs cp rest).map (fun cs => c :: cs)

/-- The cookie-parsing loop of `HttpMessage::cookies` over the given header
values: each value must be UTF-8, and its parsed cookies are pushed in
header-then-within-header order. -/
def loadCookiesList (cp : List Nat → Option Cookie) :
    List (List Nat) → Except CookieParseError (List Cookie)
  | [] => .ok []
  | v :: vs =>
    if validUtf8 v then
      match parseSegs cp (splitOn59 v) with
      | .ok cs => (loadCookiesList cp vs).map (fun cs2 => cs ++ cs2)
      | .error e => .error e
    else .error .invalidEncoding

/-- Parse every `Cookie` header occurrence of a message. -/
def Msg.loadCookies (m : Msg) : Except CookieParseError (List Cookie) :=
  loadCookiesList m.cookieParse (headerGetAll m.headers "cookie")

/-- `HttpMessage::cookies` with the extension cache made explicit: the second
component of the result is the cache after the call. On a parse error the
cache is left unpopulated (the source propagates with `?` before `insert`). -/
def Msg.cookies (m : Msg) (ext : Option (List Cookie)) :
    Except CookieParseError (List Cookie × Option (List Cookie)) :=
  match ext with
  | some cs => .ok (cs, some cs)
  | none =>
    match m.loadCookies with
    | .ok cs => .ok (cs, some cs)
    | .error e => .error e

/-- First cookie with the given name. -/
def findCookie : List Cookie → List Nat → Option Cookie
  | [], _ => none
  | c :: rest, name => if c.name = name then some c else findCookie rest name

/-- `HttpMessage::cookie`: a parse error from `cookies()` is swallowed into
`None` (and leaves the cache as it was). -/
def Msg.cookie (m : Msg) (ext : Option (List Cookie)) (name : List Nat) :
    Option Cookie × Option (List Cookie) :=
  match m.cookies ext with
  | .ok (cs, ext2) => (findCookie cs name, ext2)
  | .error _ => (none, ext)

/-- One poll of the accumulation future
`stream.from_err().fold(buf, |body, chunk| ...)` shared by `MessageBody` and
`UrlEncoded`: chunks are appended while the post-append length stays within
`lim`; a chunk that would push past `lim` yields the overflow error `ovf`
instead of the append; a source error is wrapped by `wrap`. The second
component is the fold state (accumulated buffer, remaining events). -/
def foldPoll {ε : Type} (ovf : ε) (wrap : PayloadError → ε) (lim : Nat) :
    List Nat → List StreamEvent → Poll1 (List Nat) ε × (List Nat × List StreamEvent)
  | buf, [] => (.ready buf, (buf, []))
  | buf, StreamEvent.endData :: rest => (.ready buf, (buf, rest))
  | buf, StreamEvent.notReady :: rest => (.notReady, (buf, rest))
  | buf, StreamEvent.srcErr e :: rest => (.err (wrap e), (buf, rest))
  | buf, StreamEvent.chunk c :: rest =>
    if buf.length + c.length > lim then (.err ovf, (buf, rest))
    else foldPoll ovf wrap lim (buf ++ c) rest

/-- `MessageBody`: the future returned by `body()`. `fut` holds the captured
limit and accumulated buffer of the started fold future, when any. -/
structure MessageBody where
  limit : Nat
  length : Option Nat
  stream : List StreamEvent
  err : Option PayloadError
  fut : Option (Nat × List Nat)

/-- `MessageBody::err`: a constructed future with a deferred error; the
payload is never taken. -/
def MessageBody.mkErr (e : PayloadError) : MessageBody :=
  { stream := [], limit := 262144, fut := none, err := some e, length := none }

/-- `MessageBody::new`: records the parsed `Content-Length` when the header is
present, or defers `UnknownLength` when it is present but unparsable. -/
def MessageBody.new (m : Msg) : MessageBody :=
  match headerGet m.headers "content-length" with
  | some v =>
    match toStr v with
    | some s =>
      match parseUsize s with
      | some l =>
        { stream := m.payload, limit := 262144, length := some l, fut := none, err := none }
      | none => MessageBody.mkErr .unknownLength
    | none => MessageBody.mkErr .unknownLength
  | none =>
    { stream := m.payload, limit := 262144, length := none, fut := none, err := none }

/-- `MessageBody::limit`. -/
def MessageBody.limit' (mb : MessageBody) (n : Nat) : MessageBody :=
  { mb with limit := n }

/-- Start or resume the fold future of a `MessageBody` and record its state. -/
def MessageBody.runFold (mb : MessageBody) (lim : Nat) (buf : List Nat) :
    Poll1 (List Nat) PayloadError × MessageBody :=
  ((foldPoll PayloadError.overflow id lim buf mb.stream).1,
   { mb with
      stream := (foldPoll PayloadError.overflow id lim buf mb.stream).2.2,
      fut := some (lim, (foldPoll PayloadError.overflow id lim buf mb.stream).2.1) })

/-- `<MessageBody as Future>::poll`: a running fold is resumed; otherwise a
deferred error is surfaced; otherwise a declared length above the limit fails
`Overflow` with nothing read; otherwise the fold future is created (capturing
the current limit) and polled. -/
def MessageBody.poll (mb : MessageBody) : Poll1 (List Nat) PayloadError × MessageBody :=
  match mb.fut with
  | some lb => mb.runFold lb.1 lb.2
  | none =>
    match mb.err with
    | some e => (.err e, { mb with err := none })
    | none =>
      match mb.length with
      | some len =>
        if len > mb.limit then (.err .overflow, { mb with length := none })
        else MessageBody.runFold { mb with length := none } mb.limit []
      | none => mb.runFold mb.limit []

/-- `UrlEncoded`: the future returned by `urlencoded()`. The deserialization
target type only enters through the `deser` argument of `poll`, so the state
carries no type parameter. -/
structure UrlEncoded where
  stream : List StreamEvent
  limit : Nat
  length : Option Nat
  encoding : Charset
  err : Option UrlencodedError
  fut : Option (Nat × List Nat)

/-- `UrlEncoded::err`. -/
def UrlEncoded.mkErr (e : UrlencodedError) : UrlEncoded :=
  { stream := [], limit := 262144, fut := none, err := some e, length := none,
    encoding := UTF_8 }

/-- `UrlEncoded::new`: defers `ContentType` when the lowercased content-type
token is not `application/x-www-form-urlencoded` or the charset does not
resolve, and `UnknownLength` when `Content-Length` is present but
unparsable. -/
def UrlEncoded.new (m : Msg) : UrlEncoded :=
  if toLowerBytes m.content_type ≠ strBytes "application/x-www-form-urlencoded" then
    UrlEncoded.mkErr .contentType
  else
    match m.encoding with
    | .error _ => UrlEncoded.mkErr .contentType
    | .ok enc =>
      match headerGet m.headers "content-length" with
      | some v =>
        match toStr v with
        | some s =>
          match parseUsize s with
          | some l =>
            { encoding := enc, stream := m.payload, limit := 262144,
              length := some l, fut := none, err := none }
          | none => UrlEncoded.mkErr .unknownLength
        | none => UrlEncoded.mkErr .unknownLength
      | none =>
        { encoding := enc, stream := m.payload, limit := 262144,
          length := none, fut := none, err := none }

/-- `UrlEncoded::limit`. -/
def UrlEncoded.limit' (ue : UrlEncoded) (n : Nat) : UrlEncoded :=
  { ue with limit := n }

/-- The `and_then` stage of `UrlEncoded`: on the UTF-8 fast path the raw bytes
go straight to `serde_urlencoded::from_bytes`; otherwise the body is strictly
decoded first, then deserialized; every failure is `Parse`. `deser` stands for
the external serde deserializer. -/
def UrlEncoded.finish {U : Type} (ue : UrlEncoded) (deser : List Nat → Option U)
    (body : List Nat) : Poll1 U UrlencodedError :=
  if ue.encoding.isUtf8 then
    match deser body with
    | some u => .ready u
    | none => .err .parse
  else
    match ue.encoding.decode body with
    | some t =>
      match deser t with
      | some u => .ready u
      | none => .err .parse
    | none => .err .parse

/-- Start or resume the fold-then-deserialize future of `UrlEncoded`. -/
def UrlEncoded.runFold {U : Type} (ue : UrlEncoded) (deser : List Nat → Option U)
    (lim : Nat) (buf : List Nat) : Poll1 U UrlencodedError × UrlEncoded :=
  ((match (foldPoll UrlencodedError.overflow UrlencodedError.payload lim buf ue.stream).1 with
    | .ready b => ue.finish deser b
    | .notReady => .notReady
    | .err e => .err e),
   { ue with
      stream := (foldPoll UrlencodedError.overflow UrlencodedError.payload lim buf ue.stream).2.2,
      fut := some (lim, (foldPoll UrlencodedError.overflow UrlencodedError.payload lim buf ue.stream).2.1) })

/-- `<UrlEncoded as Future>::poll`: same shape as `MessageBody::poll`, with
the deserialization stage applied when the fold completes. -/
def UrlEncoded.poll {U : Type} (deser : List Nat → Option U) (ue : UrlEncoded) :
    Poll1 U UrlencodedError × UrlEncoded :=
  match ue.fut with
  | some lb => ue.runFold deser lb.1 lb.2
  | none =>
    match ue.err with
    | some e => (.err e, { ue with err := none })
    | none =>
      match ue.length with
      | some len =>
        if len > ue.limit then (.err .overflow, { ue with length := none })
        else UrlEncoded.runFold { ue with length := none } deser ue.limit []
      | none => ue.runFold deser ue.limit []

/-- The decode used on a line segment: `str::from_utf8` on the `enc == UTF_8`
fast path, the charset's strict decode otherwise. -/
def Charset.decodeSeg (cs : Charset) (bs : List Nat) : Option (List Nat) :=
  if cs.isUtf8 then utf8Decode bs else cs.decode bs

/-- `Readlines`: the line stream returned by `readlines()`. -/
structure Readlines where
  stream : List StreamEvent
  buff : List Nat
  limit : Nat
  checkedBuff : Bool
  encoding : Charset
  err : Option ReadlinesError

/-- `Readlines::err`. -/
def Readlines.mkErr (e : ReadlinesError) : Readlines :=
  { stream := [], buff := [], limit := 262144, checkedBuff := true,
    encoding := UTF_8, err := some e }

/-- `Readlines::new`: resolves the charset eagerly; a negotiation failure
poisons the stream with a deferred error. -/
def Readlines.new (m : Msg) : Readlines :=
  match m.encoding with
  | .error _ => Readlines.mkErr .contentTypeError
  | .ok enc =>
    { stream := m.payload, buff := [], limit := 262144, checkedBuff := true,
      encoding := enc, err := none }

/-- `Readlines::limit`. -/
def Readlines.limit' (r : Readlines) (n : Nat) : Readlines :=
  { r with limit := n }

/-- The end-of-data arm of `Readlines::poll` (stream already advanced): an
empty residual ends the sequence; an over-limit residual fails
`LimitOverflow` without clearing it; otherwise the residual is decoded as a
final, possibly unterminated line and cleared. -/
def Readlines.pollEnd (r : Readlines) : Poll1 (Option (List Nat)) ReadlinesError × Readlines :=
  if r.buff.isEmpty then (.ready none, r)
  else if r.buff.length > r.limit then (.err .limitOverflow, r)
  else
    match r.encoding.decodeSeg r.buff with
    | some line => (.ready (some line), { r with buff := [] })
    | none => (.err .encodingError, r)

/-- The stream-polling half of `Readlines::poll`. On a chunk containing a
newline the line is cut from the chunk alone (`bytes.split_to(ind + 1)`)
before its remainder is appended to the residual; on an over-limit line or a
failed decode the chunk that was popped is dropped. -/
def Readlines.pollStream (r : Readlines) : Poll1 (Option (List Nat)) ReadlinesError × Readlines :=
  match r.stream with
  | StreamEvent.chunk c :: rest =>
    match findNl c with
    | some ind =>
      if ind + 1 > r.limit then (.err .limitOverflow, { r with stream := rest })
      else
        match r.encoding.decodeSeg (c.take (ind + 1)) with
        | some line =>
          (.ready (some line),
           { r with stream := rest, buff := r.buff ++ c.drop (ind + 1),
                    checkedBuff := false })
        | none => (.err .encodingError, { r with stream := rest })
    | none => (.notReady, { r with stream := rest, buff := r.buff ++ c })
  | StreamEvent.notReady :: rest => (.notReady, { r with stream := rest })
  | StreamEvent.srcErr e :: rest => (.err (.payloadErr e), { r with stream := rest })
  | StreamEvent.endData :: rest => Readlines.pollEnd { r with stream := rest }
  | [] => r.pollEnd

/-- `<Readlines as Stream>::poll`: surface a deferred error; scan the residual
when it has not yet been confirmed boundary-free (an over-limit candidate line
fails `LimitOverflow` with the residual intact; otherwise the line is cut off
the residual and decoded); otherwise poll the source. -/
def Readlines.poll (r : Readlines) : Poll1 (Option (List Nat)) ReadlinesError × Readlines :=
  match r.err with
  | some e => (.err e, { r with err := none })
  | none =>
    if r.checkedBuff then r.pollStream
    else
      match findNl r.buff with
      | some ind =>
        if ind + 1 > r.limit then (.err .limitOverflow, r)
        else
          match r.encoding.decodeSeg (r.buff.take (ind + 1)) with
          | some line => (.ready (some line), { r with buff := r.buff.drop (ind + 1) })
          | none => (.err .encodingError, { r with buff := r.buff.drop (ind + 1) })
      | none => Readlines.pollStream { r with checkedBuff := true }

/-- Drive a `Readlines` with repeated demands, collecting the yielded lines:
`some lines` when the sequence ends cleanly within `fuel` demands, `none` on
an error or when fuel runs out. -/
def Readlines.drive : Nat → Readlines → Option (List (List Nat))
  | 0, _ => none
  | fuel + 1, r =>
    match Readlines.poll r with
    | (Poll1.ready none, _) => some []
    | (Poll1.ready (some line), r2) => (Readlines.drive fuel r2).map (fun ls => line :: ls)
    | (Poll1.notReady, r2) => Readlines.drive fuel r2
    | (Poll1.err _, _) => none

/-- Buffer invariant of `MessageBody`: whenever a fold future has been
started, its accumulated buffer is within the limit it captured. -/
def MessageBody.bufInv (mb : MessageBody) : Prop :=
  ∀ l b, mb.fut = some (l, b) → List.length b ≤ l

/-- Buffer invariant of `UrlEncoded`: same statement as for `MessageBody`. -/
def UrlEncoded.bufInv (ue : UrlEncoded) : Prop :=
  ∀ l b, ue.fut = some (l, b) → List.length b ≤ l

/-- content_type as the specification claims it (C7): the lower-cased and
trimmed token before the first `;`, or empty on an absent/unreadable
header. -/
def content_type_claimed (m : Msg) : List Nat :=
  match headerGet m.headers "content-type" with
  | some v =>
    match toStr v with
    | some s => toLowerBytes (trimWs (s.takeWhile (fun b => b != 59)))
    | none => []
  | none => []

/-- content_type as amended: the trimmed (not lower-cased) token before the
first `;`, or empty on an absent/unreadable header. -/
def content_type_amended (m : Msg) : List Nat :=
  (((headerGet m.headers "content-type").bind toStr).map
    (fun s => trimWs (s.takeWhile (fun b => b != 59)))).getD []

/-- External mime parser for the concrete test messages: any header text
parses to a mime type without parameters. -/
def mimeNoParam : List Nat → Option Mime := fun _ => some { charsetParam := none }

/-- External charset registry for the concrete test messages. -/
def lookupNone : List Nat → Option Charset := fun _ => none

/-- External cookie parser for the concrete test messages: splits
`name=value` at the first `=`. -/
def cookieParseEq : List Nat → Option Cookie := fun t =>
  some { name := t.takeWhile (fun b => b != 61),
         value := (t.dropWhile (fun b => b != 61)).drop 1 }

/-- External cookie parser rejecting every segment. -/
def cookieParseNone : List Nat → Option Cookie := fun _ => none

/-- Message with no headers and a one-chunk `test` payload. -/
def msgTest : Msg :=
  { headers := [], payload := [StreamEvent.chunk (strBytes "test"), StreamEvent.endData],
    mimeParse := mimeNoParam, charsetLookup := lookupNone, cookieParse := cookieParseNone }

/-- Message declaring `Content-Length: 300000`. -/
def msgLen300000 : Msg :=
  { headers := [("content-length", strBytes "300000")],
    payload := [StreamEvent.chunk (strBytes "x"), StreamEvent.endData],
    mimeParse := mimeNoParam, charsetLookup := lookupNone, cookieParse := cookieParseNone }

/-- Form-typed message with the unparsable `Content-Length: xxxx`. -/
def msgBadLen : Msg :=
  { headers := [("content-type", strBytes "application/x-www-form-urlencoded"),
                ("content-length", strBytes "xxxx")],
    payload := [], mimeParse := mimeNoParam, charsetLookup := lookupNone,
    cookieParse := cookieParseNone }

/-- Message with a non-form content type. -/
def msgTextPlain : Msg :=
  { headers := [("content-type", strBytes "text/plain"), ("content-length", strBytes "10")],
    payload := [], mimeParse := mimeNoParam, charsetLookup := lookupNone,
    cookieParse := cookieParseNone }

/-- Message whose content-type token has upper-case letters. -/
def msgUpperCT : Msg :=
  { headers := [("content-type", strBytes "Text/Plain; charset=utf-8")],
    payload := [], mimeParse := mimeNoParam, charsetLookup := lookupNone,
    cookieParse := cookieParseNone }

/-- Message with two `Cookie` headers. -/
def msgCookies : Msg :=
  { headers := [("cookie", strBytes "a=1; b=2"), ("cookie", strBytes "c=3")],
    payload := [], mimeParse := mimeNoParam, charsetLookup := lookupNone,
    cookieParse := cookieParseEq }

/-- Message whose single `Cookie` header fails to parse. -/
def msgBadCookie : Msg :=
  { headers := [("cookie", strBytes "bad")],
    payload := [], mimeParse := mimeNoParam, charsetLookup := lookupNone,
    cookieParse := cookieParseNone }

/-- Message whose payload splits a line across two chunks: `abc` carries no
newline, `d\nef` does. -/
def msgSplitLine : Msg :=
  { headers := [],
    payload := [StreamEvent.chunk (strBytes "abc"), StreamEvent.chunk (strBytes "d\nef")],
    mimeParse := mimeNoParam, charsetLookup := lookupNone, cookieParse := cookieParseNone }

/-- Readlines state whose unscanned residual holds an over-limit line. -/
def rlBuffLong : Readlines :=
  { stream := [], buff := strBytes "aaa\n", limit := 2, checkedBuff := false,
    encoding := UTF_8, err := none }

/-- Readlines state about to poll a chunk holding an over-limit line. -/
def rlChunkLong : Readlines :=
  { stream := [StreamEvent.chunk (strBytes "aaa\n")], buff := [], limit := 2,
    checkedBuff := true, encoding := UTF_8, err := none }

/-- Readlines state at end-of-data with an over-limit residual. -/
def rlEndLong : Readlines :=
  { stream := [StreamEvent.endData], buff := strBytes "aaaa", limit := 2,
    checkedBuff := true, encoding := UTF_8, err := none }

/-- The accumulation step never lets the buffer grow past the limit: every
fold state reachable from a within-limit buffer is within-limit. -/
theorem foldPoll_len_le {ε : Type} (ovf : ε) (wrap : PayloadError → ε) (lim : Nat)
    (evs : List StreamEvent) :
    ∀ buf : List Nat, buf.length ≤ lim →
      (foldPoll ovf wrap lim buf evs).2.1.length ≤ lim := by
  induction evs with
  | nil => intro buf h; simpa [foldPoll] using h
  | cons e rest ih =>
    intro buf h
    cases e with
    | chunk c =>
      by_cases hc : buf.length + c.length > lim
      · simpa [foldPoll, hc] using h
      · simp only [foldPoll, hc, if_neg, ite_false]
        exact ih (buf ++ c) (by rw [List.length_append]; omega)
    | notReady => simpa [foldPoll] using h
    | endData => simpa [foldPoll] using h
    | srcErr e2 => simpa [foldPoll] using h

/-- When the source delivers chunks and then end-of-data and the total length
fits under the limit, the fold resolves to the full concatenation. -/
theorem foldPoll_chunks_ready {ε : Type} (ovf : ε) (wrap : PayloadError → ε) (lim : Nat)
    (cs : List (List Nat)) :
    ∀ buf : List Nat, buf.length + (concatChunks cs).length ≤ lim →
      foldPoll ovf wrap lim buf (cs.map StreamEvent.chunk ++ [StreamEvent.endData])
        = (Poll1.ready (buf ++ concatChunks cs), (buf ++ concatChunks cs, [])) := by
  induction cs with
  | nil =>
    intro buf h
    simp [foldPoll, concatChunks]
  | cons c cs ih =>
    intro buf h
    have hcc : concatChunks (c :: cs) = c ++ concatChunks cs := rfl
    rw [hcc, List.length_append] at h
    have hc : ¬ buf.length + c.length > lim := by omega
    have h2 : (buf ++ c).length + (concatChunks cs).length ≤ lim := by
      rw [List.length_append]; omega
    simp only [List.map_cons, List.cons_append, foldPoll, hc, if_neg, ite_false,
      List.append_eq]
    rw [ih (buf ++ c) h2, hcc, List.append_assoc]

/-- The constructor of `MessageBody` never starts a fold future. -/
theorem messageBody_new_fut_none (m : Msg) : (MessageBody.new m).fut = none := by
  unfold MessageBody.new MessageBody.mkErr
  repeat' split
  all_goals rfl

/-- The constructor of `UrlEncoded` never starts a fold future. -/
theorem urlEncoded_new_fut_none (m : Msg) : (UrlEncoded.new m).fut = none := by
  unfold UrlEncoded.new UrlEncoded.mkErr
  repeat' split
  all_goals rfl

/-- C1: for every body accumulation via body() or urlencoded(), the cumulative
buffer's length never exceeds the active (captured) limit at any observation
point, whatever Content-Length declares: construction starts with no buffer,
each poll preserves the bound, and a chunk whose addition would push the
buffer past the limit yields the terminal Overflow error instead of the
append. -/
theorem c1_buffer_never_exceeds_limit :
    (∀ m : Msg, (MessageBody.new m).bufInv)
    ∧ (∀ mb : MessageBody, mb.bufInv → ((MessageBody.poll mb).2).bufInv)
    ∧ (∀ m : Msg, (UrlEncoded.new m).bufInv)
    ∧ (∀ (U : Type) (deser : List Nat → Option U) (ue : UrlEncoded),
        ue.bufInv → ((UrlEncoded.poll deser ue).2).bufInv)
    ∧ (∀ (lim : Nat) (buf c : List Nat) (rest : List StreamEvent),
        buf.length + c.length > lim →
        (foldPoll PayloadError.overflow id lim buf (StreamEvent.chunk c :: rest)).1
          = Poll1.err PayloadError.overflow) := by
  refine ⟨?_, ?_, ?_, ?_, ?_⟩
  · intro m l b hfut
    rw [messageBody_new_fut_none] at hfut
    exact Option.noConfusion hfut
  · intro mb hinv
    unfold MessageBody.poll
    cases hf : mb.fut with
    | some lb =>
      obtain ⟨lim, buf⟩ := lb
      have hb := hinv lim buf hf
      unfold MessageBody.runFold
      intro l b hfut
      simp only [Option.some.injEq, Prod.mk.injEq] at hfut
      obtain ⟨rfl, rfl⟩ := hfut
      exact foldPoll_len_le _ _ _ _ buf hb
    | none =>
      cases he : mb.err with
      | some e =>
        intro l b hfut
        exact Option.noConfusion hfut
      | none =>
        cases hl : mb.length with
        | some len =>
          by_cases hlim : len > mb.limit
          · simp only [hlim, if_pos, ite_true]
            intro l b hfut
            exact Option.noConfusion hfut
          · simp only [hlim, if_neg, ite_false]
            unfold MessageBody.runFold
            intro l b hfut
            simp only [Option.some.injEq, Prod.mk.injEq] at hfut
            obtain ⟨rfl, rfl⟩ := hfut
            exact foldPoll_len_le _ _ _ _ [] (Nat.zero_le _)
        | none =>
          unfold MessageBody.runFold
          intro l b hfut
          simp only [Option.some.injEq, Prod.mk.injEq] at hfut
          obtain ⟨rfl, rfl⟩ := hfut
          exact foldPoll_len_le _ _ _ _ [] (Nat.zero_le _)
  · intro m l b hfut
    rw [urlEncoded_new_fut_none] at hfut
    exact Option.noConfusion hfut
  · intro U deser ue hinv
    unfold UrlEncoded.poll
    cases hf : ue.fut with
    | some lb =>
      obtain ⟨lim, buf⟩ := lb
      have hb := hinv lim buf hf
      unfold UrlEncoded.runFold
      intro l b hfut
      simp only [Option.some.injEq, Prod.mk.injEq] at hfut
      obtain ⟨rfl, rfl⟩ := hfut
      exact foldPoll_len_le _ _ _ _ buf hb
    | none =>
      cases he : ue.err with
      | some e =>
        intro l b hfut
        exact Option.noConfusion hfut
      | none =>
        cases hl : ue.length with
        | some len =>
          by_cases hlim : len > ue.limit
          · simp only [hlim, if_pos, ite_true]
            intro l b hfut
            exact Option.noConfusion hfut
          · simp only [hlim, if_neg, ite_false]
            unfold UrlEncoded.runFold
            intro l b hfut
            simp only [Option.some.injEq, Prod.mk.injEq] at hfut
            obtain ⟨rfl, rfl⟩ := hfut
            exact foldPoll_len_le _ _ _ _ [] (Nat.zero_le _)
        | none =>
          unfold UrlEncoded.runFold
          intro l b hfut
          simp only [Option.some.injEq, Prod.mk.injEq] at hfut
          obtain ⟨rfl, rfl⟩ := hfut
          exact foldPoll_len_le _ _ _ _ [] (Nat.zero_le _)
  · intro lim buf c rest h
    simp [foldPoll, h]

/-- Witness for C1 at concrete inputs: the invariant holds after construction
and after a poll on both futures, and an oversized chunk is refused. -/
theorem c1_witness :
    MessageBody.bufInv (MessageBody.new msgTest)
    ∧ MessageBody.bufInv ((MessageBody.poll (MessageBody.new msgTest)).2)
    ∧ UrlEncoded.bufInv (UrlEncoded.new msgBadLen)
    ∧ UrlEncoded.bufInv
        ((UrlEncoded.poll (fun bs => some bs) (UrlEncoded.new msgBadLen)).2)
    ∧ (foldPoll PayloadError.overflow id 2 [] [StreamEvent.chunk (strBytes "aaa")]).1
        = Poll1.err PayloadError.overflow :=
  ⟨c1_buffer_never_exceeds_limit.1 msgTest,
   c1_buffer_never_exceeds_limit.2.1 (MessageBody.new msgTest)
     (c1_buffer_never_exceeds_limit.1 msgTest),
   c1_buffer_never_exceeds_limit.2.2.1 msgBadLen,
   c1_buffer_never_exceeds_limit.2.2.2.1 (List Nat) (fun bs => some bs)
     (UrlEncoded.new msgBadLen) (c1_buffer_never_exceeds_limit.2.2.1 msgBadLen),
   c1_buffer_never_exceeds_limit.2.2.2.2 2 [] (strBytes "aaa") [] (by decide)⟩

/-- C3: when Content-Length parses to L, construction records no deferred
error; if L exceeds the active limit, the first demand fails Overflow before
any byte is read (stream untouched, no fold started); and raising the limit to
n >= L before the first demand lets that demand proceed to draining. -/
theorem c3_declared_length_preflight (m : Msg) (v s : List Nat) (L : Nat)
    (hv : headerGet m.headers "content-length" = some v)
    (hs : toStr v = some s) (hL : parseUsize s = some L) :
    (MessageBody.new m).err = none
    ∧ (MessageBody.new m).length = some L
    ∧ (L > 262144 →
        ((MessageBody.new m).poll).1 = Poll1.err PayloadError.overflow
        ∧ ((MessageBody.new m).poll).2.stream = (MessageBody.new m).stream
        ∧ ((MessageBody.new m).poll).2.fut = none)
    ∧ (∀ n, L ≤ n →
        (((MessageBody.new m).limit' n).poll).1
          = (foldPoll PayloadError.overflow id n [] m.payload).1) := by
  have hnew : MessageBody.new m
      = { stream := m.payload, limit := 262144, length := some L,
          fut := none, err := none } := by
    simp [MessageBody.new, hv, hs, hL]
  refine ⟨by rw [hnew], by rw [hnew], ?_, ?_⟩
  · intro hgt
    rw [hnew]
    refine ⟨?_, ?_, ?_⟩ <;> simp [MessageBody.poll, hgt]
  · intro n hn
    rw [hnew]
    have hgt : ¬ L > n := by omega
    simp [MessageBody.limit', MessageBody.poll, MessageBody.runFold, hgt]

/-- Witness for C3 at Content-Length 300000 (above the 262144 default): no
construction error, preflight Overflow on first demand, and no preflight
Overflow once the limit is raised to 300000. -/
theorem c3_witness :
    (MessageBody.new msgLen300000).err = none
    ∧ ((MessageBody.new msgLen300000).poll).1 = Poll1.err PayloadError.overflow
    ∧ (((MessageBody.new msgLen300000).limit' 300000).poll).1
        = (foldPoll PayloadError.overflow id 300000 [] msgLen300000.payload).1 := by
  have h := c3_declared_length_preflight msgLen300000 (strBytes "300000")
    (strBytes "300000") 300000 (by decide) (by decide) (by decide)
  exact ⟨h.1, (h.2.2.1 (by decide)).1, h.2.2.2 300000 (by decide)⟩

/-- C4: a present but unparsable Content-Length still lets construction
succeed; the error surfaces on the first demand with no bytes consumed:
body() as PayloadError::UnknownLength, urlencoded() (when its content-type
gate passes) as UrlencodedError::UnknownLength. -/
theorem c4_unparsable_length_deferred (m : Msg) (v : List Nat)
    (hv : headerGet m.headers "content-length" = some v)
    (hbad : toStr v = none ∨ ∃ s, toStr v = some s ∧ parseUsize s = none) :
    (MessageBody.new m).err = some PayloadError.unknownLength
    ∧ ((MessageBody.new m).poll).1 = Poll1.err PayloadError.unknownLength
    ∧ (MessageBody.new m).stream = []
    ∧ (toLowerBytes m.content_type = strBytes "application/x-www-form-urlencoded" →
        (∃ enc, m.encoding = Except.ok enc) →
        (UrlEncoded.new m).err = some UrlencodedError.unknownLength
        ∧ (∀ (U : Type) (deser : List Nat → Option U),
            (UrlEncoded.poll deser (UrlEncoded.new m)).1
              = Poll1.err UrlencodedError.unknownLength)
        ∧ (UrlEncoded.new m).stream = []) := by
  have hmb : MessageBody.new m = MessageBody.mkErr PayloadError.unknownLength := by
    rcases hbad with hb | ⟨s, hs, hps⟩
    · simp [MessageBody.new, hv, hb]
    · simp [MessageBody.new, hv, hs, hps]
  refine ⟨by rw [hmb]; rfl, by rw [hmb]; rfl, by rw [hmb]; rfl, ?_⟩
  rintro hct ⟨enc, henc⟩
  have hue : UrlEncoded.new m = UrlEncoded.mkErr UrlencodedError.unknownLength := by
    rcases hbad with hb | ⟨s, hs, hps⟩
    · simp [UrlEncoded.new, hct, henc, hv, hb]
    · simp [UrlEncoded.new, hct, henc, hv, hs, hps]
  exact ⟨by rw [hue]; rfl, fun U deser => by rw [hue]; rfl, by rw [hue]; rfl⟩

/-- Witness for C4 at Content-Length `xxxx` on a form-typed message. -/
theorem c4_witness :
    (MessageBody.new msgBadLen).err = some PayloadError.unknownLength
    ∧ ((MessageBody.new msgBadLen).poll).1 = Poll1.err PayloadError.unknownLength
    ∧ (UrlEncoded.new msgBadLen).err = some UrlencodedError.unknownLength
    ∧ (UrlEncoded.poll (fun bs => some (bs : List Nat)) (UrlEncoded.new msgBadLen)).1
        = Poll1.err UrlencodedError.unknownLength := by
  have h := c4_unparsable_length_deferred msgBadLen (strBytes "xxxx") (by decide)
    (Or.inr ⟨strBytes "xxxx", by decide, by decide⟩)
  have h2 := h.2.2.2 (by decide) ⟨UTF_8, rfl⟩
  exact ⟨h.1, h.2.1, h2.1, h2.2.1 (List Nat) (fun bs => some bs)⟩

/-- C5: with no deferred construction error and a declared length within the
limit, when the source delivers chunks and then end-of-data whose total length
is at most the active limit, body() resolves to exactly their
concatenation. -/
theorem c5_body_resolves_to_concatenation (mb : MessageBody) (cs : List (List Nat))
    (hfut : mb.fut = none) (herr : mb.err = none)
    (hlen : ∀ L, mb.length = some L → L ≤ mb.limit)
    (hstream : mb.stream = cs.map StreamEvent.chunk ++ [StreamEvent.endData])
    (hsum : (concatChunks cs).length ≤ mb.limit) :
    (mb.poll).1 = Poll1.ready (concatChunks cs) := by
  have h0 : ([] : List Nat).length + (concatChunks cs).length ≤ mb.limit := by
    simpa using hsum
  have hfold := foldPoll_chunks_ready PayloadError.overflow id mb.limit cs [] h0
  simp only [MessageBody.poll, hfut, herr]
  cases hl : mb.length with
  | none =>
    simp only [MessageBody.runFold, hstream, hfold]
    simp
  | some len =>
    have hgt : ¬ len > mb.limit := by
      have := hlen len hl
      omega
    simp only [hgt, if_neg, ite_false, MessageBody.runFold, hstream, hfold]
    simp

/-- Witness for C5: a single chunk `test` under the default limit yields
exactly `test`. -/
theorem c5_witness :
    ((MessageBody.new msgTest).poll).1 = Poll1.ready (strBytes "test") := by
  have h := c5_body_resolves_to_concatenation (MessageBody.new msgTest)
    [strBytes "test"] rfl rfl
    (by intro L hL; exact Option.noConfusion hL) rfl (by decide)
  simpa [concatChunks] using h

/-- C6: a content-type token other than application/x-www-form-urlencoded
(case-insensitively), or a charset that fails to resolve, makes urlencoded()
record a deferred ContentType error, reported on the first demand, never as a
construction failure. -/
theorem c6_content_type_gate (m : Msg)
    (h : toLowerBytes m.content_type ≠ strBytes "application/x-www-form-urlencoded"
        ∨ ∃ e, m.encoding = Except.error e) :
    (UrlEncoded.new m).err = some UrlencodedError.contentType
    ∧ (∀ (U : Type) (deser : List Nat → Option U),
        (UrlEncoded.poll deser (UrlEncoded.new m)).1
          = Poll1.err UrlencodedError.contentType) := by
  have hue : UrlEncoded.new m = UrlEncoded.mkErr UrlencodedError.contentType := by
    by_cases hct : toLowerBytes m.content_type
        = strBytes "application/x-www-form-urlencoded"
    · rcases h with hne | ⟨e, he⟩
      · exact absurd hct hne
      · simp [UrlEncoded.new, hct, he]
    · simp [UrlEncoded.new, hct]
  exact ⟨by rw [hue]; rfl, fun U deser => by rw [hue]; rfl⟩

/-- Witness for C6 at content type `text/plain`. -/
theorem c6_witness :
    (UrlEncoded.new msgTextPlain).err = some UrlencodedError.contentType
    ∧ (UrlEncoded.poll (fun bs => some (bs : List Nat)) (UrlEncoded.new msgTextPlain)).1
        = Poll1.err UrlencodedError.contentType := by
  have h := c6_content_type_gate msgTextPlain (Or.inl (by decide))
  exact ⟨h.1, h.2 (List Nat) (fun bs => some bs)⟩

/-- C7 (counterexample): on the header value `Text/Plain; charset=utf-8`,
content_type() returns `Text/Plain`, not the lower-cased token the claim
states. -/
theorem c7_counterexample :
    Msg.content_type msgUpperCT = strBytes "Text/Plain"
    ∧ content_type_claimed msgUpperCT = strBytes "text/plain"
    ∧ Msg.content_type msgUpperCT ≠ content_type_claimed msgUpperCT := by
  refine ⟨by decide, by decide, by decide⟩

/-- C7 (amended): content_type() returns the trimmed — but not lower-cased —
media-type token preceding the first `;` of the Content-Type header value,
and the empty string when the header is absent or not valid header text; it
never fails. -/
theorem c7_content_type_amended (m : Msg) :
    m.content_type = content_type_amended m := by
  unfold Msg.content_type content_type_amended
  cases hv : headerGet m.headers "content-type" with
  | none => simp
  | some v =>
    cases hs : toStr v with
    | none => simp [hv, hs]
    | some s => simp [hv, hs]

/-- C8: a readlines() demand fails terminally with LimitOverflow whenever the
newline located in the currently scanned segment — the unscanned residual or
a newly polled chunk — sits at an offset ind with ind+1 above the per-line
limit, and whenever end-of-data is reached with a residual longer than the
limit. -/
theorem c8_readlines_limit_overflow (r : Readlines) (herr : r.err = none) :
    (r.checkedBuff = false → ∀ ind, findNl r.buff = some ind → ind + 1 > r.limit →
        (r.poll).1 = Poll1.err ReadlinesError.limitOverflow)
    ∧ ((r.checkedBuff = true ∨ findNl r.buff = none) →
        ∀ c rest ind, r.stream = StreamEvent.chunk c :: rest → findNl c = some ind →
          ind + 1 > r.limit → (r.poll).1 = Poll1.err ReadlinesError.limitOverflow)
    ∧ ((r.checkedBuff = true ∨ findNl r.buff = none) →
        (r.stream = [] ∨ ∃ rest, r.stream = StreamEvent.endData :: rest) →
        r.buff.length > r.limit →
        (r.poll).1 = Poll1.err ReadlinesError.limitOverflow) := by
  refine ⟨?_, ?_, ?_⟩
  · intro hcb ind hfind hlim
    simp [Readlines.poll, herr, hcb, hfind, hlim]
  · intro hpre c rest ind hs hfind hlim
    cases hcb : r.checkedBuff with
    | true => simp [Readlines.poll, Readlines.pollStream, herr, hcb, hs, hfind, hlim]
    | false =>
      have hnone : findNl r.buff = none := by
        rcases hpre with h1 | h1
        · rw [hcb] at h1
          exact absurd h1 (by simp)
        · exact h1
      simp [Readlines.poll, Readlines.pollStream, herr, hcb, hnone, hs, hfind, hlim]
  · intro hpre hend hlim
    have hne : r.buff.isEmpty = false := by
      cases hbf : r.buff with
      | nil => rw [hbf] at hlim; simp at hlim
      | cons x xs => rfl
    cases hcb : r.checkedBuff with
    | true =>
      rcases hend with hs | ⟨rest, hs⟩ <;>
        simp [Readlines.poll, Readlines.pollStream, Readlines.pollEnd, herr, hcb, hs,
          hne, hlim]
    | false =>
      have hnone : findNl r.buff = none := by
        rcases hpre with h1 | h1
        · rw [hcb] at h1
          exact absurd h1 (by simp)
        · exact h1
      rcases hend with hs | ⟨rest, hs⟩ <;>
        simp [Readlines.poll, Readlines.pollStream, Readlines.pollEnd, herr, hcb,
          hnone, hs, hne, hlim]

/-- Witness for C8 at the three overflow sites with limit 2: residual line
`aaa\n`, chunk line `aaa\n`, and end-of-data residual `aaaa`. -/
theorem c8_witness :
    (rlBuffLong.poll).1 = Poll1.err ReadlinesError.limitOverflow
    ∧ (rlChunkLong.poll).1 = Poll1.err ReadlinesError.limitOverflow
    ∧ (rlEndLong.poll).1 = Poll1.err ReadlinesError.limitOverflow := by
  refine ⟨?_, ?_, ?_⟩
  · exact (c8_readlines_limit_overflow rlBuffLong rfl).1 rfl 3 (by decide) (by decide)
  · exact (c8_readlines_limit_overflow rlChunkLong rfl).2.1 (Or.inl rfl)
      (strBytes "aaa\n") [] 3 rfl (by decide) (by decide)
  · exact (c8_readlines_limit_overflow rlEndLong rfl).2.2 (Or.inl rfl)
      (Or.inr ⟨[], rfl⟩) (by decide)

/-- C2 (code bug): driving readlines() over the payload delivered as the two
chunks `abc` (no newline) and `d\nef` yields the lines `d\n` and `abcef`: the
non-empty residual `abc` is left out of the first yielded line
(`bytes.split_to(ind + 1)` cuts the line from the chunk alone) and re-emitted
after the chunk remainder, so concatenating the yielded lines gives
`d\nabcef`, not the original byte sequence `abcd\nef`. -/
theorem c2_readlines_roundtrip_violated :
    Readlines.drive 6 (Readlines.new msgSplitLine)
      = some [strBytes "d\n", strBytes "abcef"]
    ∧ chunkBytes msgSplitLine.payload = strBytes "abcd\nef"
    ∧ strBytes "d\n" ++ strBytes "abcef" ≠ strBytes "abcd\nef" := by
  refine ⟨by decide, by decide, by decide⟩

/-- C9: the first successful cookies() call parses every Cookie header
occurrence into one ordered sequence (cookies concatenate across headers in
order) and stores it in the cache; every later call returns the cached
sequence unchanged, whatever the message's headers have become. -/
theorem c9_cookies_cached :
    (∀ (m : Msg) (cs : List Cookie), m.loadCookies = Except.ok cs →
        m.cookies none = Except.ok (cs, some cs))
    ∧ (∀ (m : Msg) (cs : List Cookie), m.cookies (some cs) = Except.ok (cs, some cs))
    ∧ (∀ (cp : List Nat → Option Cookie) (vs1 vs2 : List (List Nat))
          (cs1 cs2 : List Cookie),
        loadCookiesList cp vs1 = Except.ok cs1 →
        loadCookiesList cp vs2 = Except.ok cs2 →
        loadCookiesList cp (vs1 ++ vs2) = Except.ok (cs1 ++ cs2)) := by
  refine ⟨?_, ?_, ?_⟩
  · intro m cs h
    simp [Msg.cookies, h]
  · intro m cs
    rfl
  · intro cp vs1
    induction vs1 with
    | nil =>
      intro vs2 cs1 cs2 h1 h2
      simp only [loadCookiesList, Except.ok.injEq] at h1
      subst h1
      simpa using h2
    | cons v vs ih =>
      intro vs2 cs1 cs2 h1 h2
      by_cases hu : validUtf8 v
      · simp only [loadCookiesList, hu, if_pos, ite_true] at h1 ⊢
        cases hq : parseSegs cp (splitOn59 v) with
        | error e => rw [hq] at h1; exact Except.noConfusion h1
        | ok css =>
          rw [hq] at h1
          cases hrec : loadCookiesList cp vs with
          | error e =>
            rw [hrec] at h1
            exact Except.noConfusion h1
          | ok tail =>
            rw [hrec] at h1
            simp only [Except.map, Except.ok.injEq] at h1
            subst h1
            have hih := ih vs2 tail cs2 hrec h2
            simp [Except.map, hih, List.append_assoc]
      · simp only [loadCookiesList, hu] at h1
        exact Except.noConfusion h1

/-- Witness for C9: two Cookie headers parse into one ordered cached
sequence; a cached sequence is returned as-is even on a message whose Cookie
header no longer parses; parsed header values concatenate in order. -/
theorem c9_witness :
    Msg.cookies msgCookies none
      = Except.ok ([⟨strBytes "a", strBytes "1"⟩, ⟨strBytes "b", strBytes "2"⟩,
          ⟨strBytes "c", strBytes "3"⟩],
         some [⟨strBytes "a", strBytes "1"⟩, ⟨strBytes "b", strBytes "2"⟩,
          ⟨strBytes "c", strBytes "3"⟩])
    ∧ Msg.cookies msgBadCookie (some [⟨strBytes "a", strBytes "1"⟩])
        = Except.ok ([⟨strBytes "a", strBytes "1"⟩], some [⟨strBytes "a", strBytes "1"⟩])
    ∧ loadCookiesList cookieParseEq ([strBytes "a=1"] ++ [strBytes "b=2"])
        = Except.ok ([⟨strBytes "a", strBytes "1"⟩] ++ [⟨strBytes "b", strBytes "2"⟩]) :=
  ⟨c9_cookies_cached.1 msgCookies
      [⟨strBytes "a", strBytes "1"⟩, ⟨strBytes "b", strBytes "2"⟩,
       ⟨strBytes "c", strBytes "3"⟩] rfl,
   c9_cookies_cached.2.1 msgBadCookie [⟨strBytes "a", strBytes "1"⟩],
   c9_cookies_cached.2.2 cookieParseEq [strBytes "a=1"] [strBytes "b=2"]
     [⟨strBytes "a", strBytes "1"⟩] [⟨strBytes "b", strBytes "2"⟩] rfl rfl⟩

/-- C10: when cookies() fails to parse the Cookie headers, cookie(name)
returns none for every name and leaves the cache untouched — the error is
swallowed, so an unparsable Cookie header is indistinguishable from a missing
cookie, whose lookup also returns none. -/
theorem c10_cookie_swallows_parse_error (m : Msg) (ext : Option (List Cookie))
    (e : CookieParseError) (h : m.cookies ext = Except.error e) :
    (∀ name, (m.cookie ext name).1 = none ∧ (m.cookie ext name).2 = ext)
    ∧ (∀ (m2 : Msg) name, m2.loadCookies = Except.ok [] →
        (m2.cookie none name).1 = none) := by
  constructor
  · intro name
    constructor <;> simp [Msg.cookie, h]
  · intro m2 name h2
    simp [Msg.cookie, Msg.cookies, h2, findCookie]

/-- Witness for C10: an unparsable Cookie header and an absent Cookie header
both answer none. -/
theorem c10_witness :
    (Msg.cookie msgBadCookie none (strBytes "a")).1 = none
    ∧ (Msg.cookie msgTest none (strBytes "a")).1 = none := by
  have h := c10_cookie_swallows_parse_error msgBadCookie none
    CookieParseError.malformedCookie rfl
  exact ⟨(h.1 (strBytes "a")).1, h.2 msgTest (strBytes "a") rfl⟩
